import Mathlib

/-!
Verification development for the plugin-visual-component-use data pipeline.

The Python source is shallowly embedded: strings are lists of characters,
pandas dataframes are lists of row structures, and the in-place series
mutation of `uri_to_url` is modelled by explicit state passing over a heap
of series objects.  Machine floats do not occur in the verified fragment;
the numeric columns handled by `sankey` are modelled as rationals.
-/

namespace VisualComponent

/-- Python `s.find(c, start)` for a single character: index of the first
occurrence of `c` at position `start` or later, `none` when absent. -/
def pyFindFrom (s : List Char) (c : Char) (start : Nat) : Option Nat :=
  ((s.drop start).findIdx? (fun x => x = c)).map (fun i => i + start)

/-- Length of the slice `s[: s.find('/', 8) + 1]` used throughout the code
to cut an instance out of a URL (`find` returning `-1` makes the slice
empty, hence the `0`). -/
def slashCut (s : List Char) : Nat :=
  match pyFindFrom s '/' 8 with
  | some i => i + 1
  | none => 0

/-- `deff[:deff.find('/', 8)+1]` — the instance part of a URL as extracted
by `uri_to_url.py` line 65 and `most_used_bar.py` line 79. -/
def uri_instance (s : List Char) : List Char :=
  s.take (slashCut s)

/-- Python `s.replace(old, new)` (all occurrences, left to right,
non-overlapping; an empty `old` inserts `new` around every character),
with explicit fuel for structural recursion. -/
def pyReplaceAux : Nat → List Char → List Char → List Char → List Char
  | 0, s, _, _ => s
  | _ + 1, [], old, new => if old = [] then new else []
  | fuel + 1, c :: rest, old, new =>
    if old ≠ [] ∧ old.isPrefixOf (c :: rest) then
      new ++ pyReplaceAux fuel ((c :: rest).drop old.length) old new
    else if old = [] then
      new ++ c :: pyReplaceAux fuel rest old new
    else
      c :: pyReplaceAux fuel rest old new

/-- Python `s.replace(old, new)`. -/
def pyReplace (s old new : List Char) : List Char :=
  pyReplaceAux (s.length + 1) s old new

/-- `uri_to_url` (src/Functions/uri_to_url.py lines 54–82), string branch:
when the spoofed instance differs from the target instance, and the
instance cut from the string equals the spoofed instance, the string is
rewritten with Python `replace`; otherwise it is returned unchanged. -/
def uri_to_url (data inst spoofed : List Char) : List Char :=
  if spoofed ≠ inst then
    let ui := uri_instance data
    if ui = spoofed then pyReplace data ui inst else data
  else data

/-- `uri_to_url`, pandas-Series branch (lines 61–70): each cell is tested
and rewritten independently, by in-place assignment `data[idx] = ...`. -/
def uri_to_url_series (data : List (List Char)) (inst spoofed : List Char) :
    List (List Char) :=
  if spoofed ≠ inst then
    data.map (fun deff =>
      let ui := uri_instance deff
      if ui = spoofed then pyReplace deff ui inst else deff)
  else data

/-- Heap embedding of the Series branch: the caller's series lives in a
store of series objects and is passed by reference; the function writes
the rewritten contents back into the same cell and returns the same
reference, mirroring the in-place mutation plus `return(data)`. -/
def uri_to_url_heap (heap : List (List (List Char))) (r : Nat)
    (inst spoofed : List Char) : List (List (List Char)) × Nat :=
  (heap.set r (uri_to_url_series (heap.getD r []) inst spoofed), r)

/-- Modelled from the spec's words (§4.1, refinement comparator only):
the instance is "the substring from the start up to (and including) the
second `/` after position 8", i.e. the cut ends at the second slash
found strictly beyond position 8; when no second such slash exists the
value has no instance part. -/
def specInstanceCut (s : List Char) : List Char :=
  match (List.range s.length).filter
      (fun i => 8 < i ∧ s.getD i ' ' = '/') with
  | _ :: j :: _ => s.take (j + 1)
  | _ => []

/-- Modelled from the spec's words (§4.1, refinement comparator only):
the resolver is expected to replace exactly the instance cut of the
value with the canonical instance when that cut equals the spoofed
instance, and to leave every other value (and every character after the
cut) unchanged. -/
def specResolve (data inst spoofed : List Char) : List Char :=
  if specInstanceCut data = spoofed then
    inst ++ data.drop (specInstanceCut data).length
  else data

/-- An instance string of the documented shape `https://host/`: the
scheme, a host free of slashes, and a single trailing slash. -/
def WellFormedInstance (inst : List Char) : Prop :=
  ∃ h : List Char, '/' ∉ h ∧ inst = "https://".data ++ h ++ ['/']

/-- One raw candidate row of the bar queries after column renaming and
dropping (columns `count`, `deff`, `displayId`, `roletog`, `title`; a
missing title is `none`).  The `count` column is never inspected by the
bar pipeline, so its representation as a natural number is harmless. -/
structure BarRow where
  count : Nat
  deff : List Char
  displayId : List Char
  roletog : List Char
  title : Option (List Char)
deriving DecidableEq

/-- A finished row of the ranked comparison table (after colour
assignment and title backfill). -/
structure RankedRow where
  count : Nat
  deff : List Char
  displayId : List Char
  roletog : List Char
  title : List Char
  color : List Char
deriving DecidableEq

/-- `'http://identifiers.org/so/SO:'`, the stem of the fully qualified
role used for the poi row. -/
def soStem : List Char := "http://identifiers.org/so/SO:".data

/-- The `colormap` dict of `most_used_bar.py` lines 138–144. -/
def colormap (r : List Char) : Option (List Char) :=
  if r = "http://identifiers.org/so/SO:0000167".data then
    some "rgba(4,187,61,1)".data
  else if r = "http://identifiers.org/so/SO:0000139".data then
    some "rgba(149,110,219,1)".data
  else if r = "http://identifiers.org/so/SO:0000316".data then
    some "rgba(119,157,205,1)".data
  else if r = "http://identifiers.org/so/SO:0000141".data then
    some "rgba(202,58,32,1)".data
  else none

/-- The orange fallback literally as the source writes it, with a space
after the first comma (`most_used_bar.py` line 153). -/
def orangeFallback : List Char := "rgba(255, 128,0,1)".data

/-- Colour of one row: `colormap[roletog]` with the orange fallback on
`KeyError`. -/
def rowColour (r : List Char) : List Char :=
  (colormap r).getD orangeFallback

/-- Shared core of `most_used_bar` / `most_used_by_type_bar` (lines
112–135 resp. 117–140): drop candidates with the poi's displayId,
re-index, clamp with `robustness = min(10, len - 1)`, keep rows
`0..robustness`, rewrite URLs, and overwrite the row at position
`robustness` with the poi row.  When the deduplicated pool is empty,
`robustness` is `-1` and the positional assignment
`bar_df.iloc[-1] = poi_row` raises `IndexError` on the empty frame,
modelled as `none`. -/
def barCore (rows : List BarRow) (uri inst display_id title role : List Char)
    (count : Nat) : Option (List BarRow) :=
  let spoofed := uri_instance uri
  let part_url := uri_to_url uri inst spoofed
  let deduped := rows.filter (fun r => r.displayId ≠ display_id)
  if deduped.length = 0 then none
  else
    let robustness := min 10 (deduped.length - 1)
    let kept := deduped.take (robustness + 1)
    let kept := kept.map (fun r => { r with deff := uri_to_url r.deff inst spoofed })
    let poi : BarRow :=
      { count := count, deff := part_url, displayId := display_id,
        roletog := soStem ++ role, title := some title }
    some (kept.set robustness poi)

/-- `most_used_bar` (src/Functions/most_used_bar.py lines 112–161), from
the renamed/dropped query table on: each row is coloured by its own role
and null titles are backfilled with the displayId. -/
def most_used_bar (rows : List BarRow) (uri inst display_id title role : List Char)
    (count : Nat) : Option (List RankedRow) :=
  (barCore rows uri inst display_id title role count).map (fun tbl =>
    tbl.map (fun r =>
      { count := r.count, deff := r.deff, displayId := r.displayId,
        roletog := r.roletog, title := r.title.getD r.displayId,
        color := rowColour r.roletog }))

/-- `most_used_by_type_bar` (src/Functions/most_used_by_type_bar.py lines
117–167): same core, but every row receives the single colour of the
poi's role, computed from
`"http://identifiers.org/so/SO:0000167".replace("0000167", role)`. -/
def most_used_by_type_bar (rows : List BarRow)
    (uri inst display_id title role : List Char) (count : Nat) :
    Option (List RankedRow) :=
  let part_role := pyReplace "http://identifiers.org/so/SO:0000167".data
    "0000167".data role
  (barCore rows uri inst display_id title role count).map (fun tbl =>
    tbl.map (fun r =>
      { count := r.count, deff := r.deff, displayId := r.displayId,
        roletog := r.roletog, title := r.title.getD r.displayId,
        color := rowColour part_role }))

/-- One raw co-occurrence row of the Sankey query after column
renaming/dropping and `pd.to_numeric` on `count` and `centfol`
(`average_preceeding`); the numeric columns are modelled as rationals. -/
structure SankeyRow where
  centfol : ℚ
  count : ℚ
  deff : List Char
  displayId : List Char
  roletog : List Char
  title : Option (List Char)
deriving DecidableEq

/-- A co-occurrence row after URL resolution and title backfill
(`sankey.py` lines 115–120); `displayId` is no longer consulted. -/
structure PrepRow where
  centfol : ℚ
  count : ℚ
  deff : List Char
  roletog : List Char
  title : List Char
deriving DecidableEq

/-- Lines 115–120 of `sankey.py`: rewrite every `deff` through
`uri_to_url` (with the spoofed instance cut from the poi's uri) and fill
null titles from the displayId. -/
def sankeyPrep (rows : List SankeyRow) (uri inst : List Char) : List PrepRow :=
  let spoofed := uri_instance uri
  rows.map (fun r =>
    { centfol := r.centfol, count := r.count,
      deff := uri_to_url r.deff inst spoofed, roletog := r.roletog,
      title := r.title.getD r.displayId })

/-- The four explicitly recognised role URIs, in bucket order
promoter, RBS, CDS, terminator. -/
def roleURIs : List (List Char) :=
  ["http://identifiers.org/so/SO:0000167".data,
   "http://identifiers.org/so/SO:0000139".data,
   "http://identifiers.org/so/SO:0000316".data,
   "http://identifiers.org/so/SO:0000141".data]

/-- `part_array = [prom, rbs, cds, term, other]` (lines 126–144): the
first four buckets filter on one role each, `other` keeps the rows whose
role is none of the four. -/
def part_array (rows : List PrepRow) : List (List PrepRow) :=
  [rows.filter (fun r => r.roletog = roleURIs.getD 0 []),
   rows.filter (fun r => r.roletog = roleURIs.getD 1 []),
   rows.filter (fun r => r.roletog = roleURIs.getD 2 []),
   rows.filter (fun r => r.roletog = roleURIs.getD 3 []),
   ((((rows.filter (fun r => r.roletog ≠ roleURIs.getD 0 [])).filter
       (fun r => r.roletog ≠ roleURIs.getD 1 [])).filter
       (fun r => r.roletog ≠ roleURIs.getD 2 [])).filter
       (fun r => r.roletog ≠ roleURIs.getD 3 []))]

/-- The rows actually visited by the construction loop (lines 186–223):
for each bucket index in order, at most the first 10 rows of the bucket,
each paired with its bucket index. -/
def keptRows (rows : List PrepRow) : List (Nat × PrepRow) :=
  (List.range 5).flatMap (fun b =>
    (((part_array rows).getD b []).take 10).map (fun r => (b, r)))

/-- `link_colours` (lines 151–153), semi-transparent palette; the orange
is written with a space exactly as in the source. -/
def link_colours : List (List Char) :=
  ["rgba(4,187,61,0.5)".data, "rgba(149,110,219,0.5)".data,
   "rgba(119,157,205,0.5)".data, "rgba(202,58,32,0.5)".data,
   "rgba(255, 128,0,0.5)".data]

/-- `node_colours` (line 156), opaque palette. -/
def node_colours : List (List Char) :=
  ["#04BB3D".data, "#956EDB".data, "#779DCC".data, "#CA3A20".data,
   "#FF8000".data]

/-- The five header labels (lines 179–180). -/
def precedingLabels : List (List Char) :=
  ["Preceeding Promoters".data, "Preceeding RBS".data, "Preceeding CDS".data,
   "Preceeding Terminator".data, "Preceeding Other".data]

/-- The five footer labels (lines 299–300). -/
def followingLabels : List (List Char) :=
  ["Following Promoters".data, "Following RBS".data, "Following CDS".data,
   "Following Terminator".data, "Following Other".data]

/-- The seven parallel lists out of which `sankey` builds its final
dataframe: four link lists (`source`, `target`, `value`, `linkColour`)
and three node lists (`nodeColour`, `nodeLabel`, `nodeUrl`). -/
structure SankeyLists where
  source : List Nat
  target : List Nat
  value : List ℚ
  nodeColour : List (List Char)
  nodeLabel : List (List Char)
  nodeUrl : List (List Char)
  linkColour : List (List Char)
deriving DecidableEq

/-- `sankey` (src/Functions/sankey.py lines 108–313), from the
renamed/dropped/numeric query table on.  The Python appends inside one
loop and then extends whole lists at once; both translate to list
concatenation.  The counter `target` equals `5 + P` after the loop,
where `P` is the number of kept rows. -/
def sankey (rows0 : List SankeyRow) (url uri title inst : List Char) :
    SankeyLists :=
  let rows := sankeyPrep rows0 uri inst
  let kept := keptRows rows
  let P := kept.length
  let src1 := kept.map (fun p => p.1)
  let tgt1 := (List.range P).map (fun i => i + 5)
  let val1 := kept.map (fun p => p.2.count * (1 - p.2.centfol))
  let lc1 := kept.map (fun p => link_colours.getD p.1 [])
  let percent := kept.map (fun p => p.2.centfol)
  let multiplier := kept.map (fun p => p.2.count)
  let nc1 := node_colours ++ kept.map (fun p => node_colours.getD p.1 [])
  let nl1 := precedingLabels ++ kept.map (fun p => p.2.title)
  let nu1 := (List.replicate 5 "NA".data) ++ kept.map (fun p => p.2.deff)
  -- preceding parts to poi (lines 229–245)
  let lc2 := lc1 ++ lc1
  let val2 := val1 ++ val1
  let src2 := src1 ++ tgt1
  let tgt2 := tgt1 ++ List.replicate P (5 + P)
  -- poi node (lines 248–254)
  let nl2 := nl1 ++ [title]
  let nu2 := nu1 ++ [url]
  let nc2 := nc1 ++ ["#000000".data]
  -- poi to following (lines 260–279)
  let src3 := src2 ++ List.replicate P (5 + P)
  let tgt3 := tgt2 ++ (List.range P).map (fun i => 5 + P + 1 + i)
  let lc3 := lc2 ++ lc2.take P
  let val3 := val2 ++ List.zipWith (fun p m => p * m) percent multiplier
  let nl3 := nl2 ++ (nl2.drop 5).dropLast
  let nc3 := nc2 ++ (nc2.drop 5).dropLast
  let nu3 := nu2 ++ (nu2.drop 5).dropLast
  -- following parts to footer labels (lines 286–306)
  let src4 := src3 ++ (List.range P).map (fun i => 5 + P + 1 + i)
  let tgt4 := tgt3 ++ (src4.take P).map (fun x => x + (5 + P) + P + 1)
  let lc4 := lc3 ++ lc3.take P
  let val4 := val3 ++ List.zipWith (fun p m => p * m) percent multiplier
  let nl4 := nl3 ++ followingLabels
  let nc4 := nc3 ++ node_colours
  let nu4 := nu3 ++ List.replicate 5 "NA".data
  { source := src4, target := tgt4, value := val4, nodeColour := nc4,
    nodeLabel := nl4, nodeUrl := nu4, linkColour := lc4 }

/-- The docstring example poi uri. -/
def uriFix : List Char := "https://synbiohub.org/public/igem/BBa_E0040/1".data

/-- The docstring example instance (spoofing in effect). -/
def instFix : List Char := "https://dev.synbiohub.org/".data

/-- A candidate row with a known role and a title. -/
def barRowA : BarRow :=
  { count := 12824, deff := "https://synbiohub.org/public/igem/BBa_B0034/1".data,
    displayId := "BBa_B0034".data,
    roletog := "http://identifiers.org/so/SO:0000139".data,
    title := some "BBa_B0034".data }

/-- A candidate row with a role outside the colormap and no title. -/
def barRowB : BarRow :=
  { count := 2550, deff := "https://synbiohub.org/public/igem/BBa_J176041/1".data,
    displayId := "BBa_J176041".data,
    roletog := "http://identifiers.org/so/SO:0000110".data, title := none }

/-- A CDS candidate row. -/
def barRowC : BarRow :=
  { count := 766, deff := "https://synbiohub.org/public/igem/BBa_C0040/1".data,
    displayId := "BBa_C0040".data,
    roletog := "http://identifiers.org/so/SO:0000316".data,
    title := some "TetR".data }

/-- A raw row that IS the poi, so that deduplication empties the pool. -/
def poiOnly : BarRow :=
  { count := 2348, deff := "https://synbiohub.org/public/igem/BBa_E0040/1".data,
    displayId := "BBa_E0040".data,
    roletog := "http://identifiers.org/so/SO:0000316".data, title := none }

/-- The single ranked row produced from a one-candidate pool: the poi
itself, resolved to the target instance and coloured as a CDS. -/
def poiRanked : RankedRow :=
  { count := 2348,
    deff := "https://dev.synbiohub.org/public/igem/BBa_E0040/1".data,
    displayId := "BBa_E0040".data,
    roletog := "http://identifiers.org/so/SO:0000316".data,
    title := "GFP".data, color := "rgba(119,157,205,1)".data }

/-- A single promoter co-occurrence row. -/
def sankeyRowProm : SankeyRow :=
  { centfol := 1/4, count := 8,
    deff := "https://synbiohub.org/public/igem/BBa_R0040/1".data,
    displayId := "BBa_R0040".data,
    roletog := "http://identifiers.org/so/SO:0000167".data,
    title := some "p(tetR)".data }

theorem isPrefixOf_append_self (l t : List Char) :
    l.isPrefixOf (l ++ t) = true := by
  induction l with
  | nil => simp [List.isPrefixOf]
  | cons c l ih => simp [List.isPrefixOf, ih]

theorem pyReplace_startsWith (old t new : List Char) :
    ∃ u, pyReplace (old ++ t) old new = new ++ u := by
  by_cases ho : old = []
  · subst ho
    cases t with
    | nil => exact ⟨[], by simp [pyReplace, pyReplaceAux]⟩
    | cons c r => exact ⟨c :: pyReplaceAux (r.length + 1) r [] new,
        by simp [pyReplace, pyReplaceAux]⟩
  · obtain ⟨o, old', rfl⟩ := List.exists_cons_of_ne_nil ho
    have heq : pyReplace ((o :: old') ++ t) (o :: old') new =
        new ++ pyReplaceAux ((old' ++ t).length + 1)
          ((o :: (old' ++ t)).drop (o :: old').length) (o :: old') new := by
      show pyReplaceAux (((o :: old') ++ t).length + 1) ((o :: old') ++ t) (o :: old') new = _
      rw [List.cons_append]
      show (if (o :: old') ≠ [] ∧ (o :: old').isPrefixOf (o :: (old' ++ t)) then
          new ++ pyReplaceAux ((old' ++ t).length + 1)
            ((o :: (old' ++ t)).drop (o :: old').length) (o :: old') new
        else if (o :: old') = [] then
          new ++ o :: pyReplaceAux ((old' ++ t).length + 1) (old' ++ t) (o :: old') new
        else
          o :: pyReplaceAux ((old' ++ t).length + 1) (old' ++ t) (o :: old') new) = _
      rw [if_pos ⟨by simp, by rw [← List.cons_append]; exact isPrefixOf_append_self _ _⟩]
    exact ⟨_, heq⟩

theorem uri_instance_wellformed_head (hs t : List Char) (hno : '/' ∉ hs) :
    uri_instance ("https://".data ++ hs ++ '/' :: t) =
      "https://".data ++ hs ++ ['/'] := by
  unfold uri_instance slashCut pyFindFrom
  have h8 : ("https://".data).length = 8 := by rfl
  have hdrop : ("https://".data ++ hs ++ '/' :: t).drop 8 = hs ++ '/' :: t := by
    rw [List.append_assoc, ← h8, List.drop_left]
  rw [hdrop]
  have h1 : hs.findIdx? (fun x => x = '/') = none := by
    rw [List.findIdx?_eq_none_iff]
    intro x hx
    simp only [decide_eq_false_iff_not]
    exact fun hEq => hno (hEq ▸ hx)
  have hfind : (hs ++ '/' :: t).findIdx? (fun x => x = '/') = some hs.length := by
    rw [List.findIdx?_append, h1, List.findIdx?_cons]
    simp
  rw [hfind]
  have hassoc : "https://".data ++ hs ++ '/' :: t =
      ("https://".data ++ hs ++ ['/']) ++ t := by simp
  have hlen : ("https://".data ++ hs ++ ['/']).length = hs.length + 8 + 1 := by
    simp [h8]
  rw [hassoc]
  show (("https://".data ++ hs ++ ['/']) ++ t).take (hs.length + 8 + 1) = _
  rw [List.take_left' hlen]

theorem uri_to_url_changed (d inst sp : List Char) (hne : sp ≠ inst)
    (hcut : uri_instance d = sp) :
    uri_to_url d inst sp = pyReplace d sp inst := by
  unfold uri_to_url
  rw [if_pos hne]
  show (if uri_instance d = sp then pyReplace d (uri_instance d) inst else d) = _
  simp only [hcut]
  rw [if_pos trivial]

theorem uri_to_url_unchanged (d inst sp : List Char)
    (h : uri_instance d ≠ sp ∨ sp = inst) :
    uri_to_url d inst sp = d := by
  unfold uri_to_url
  rcases h with h | h
  · by_cases hne : sp ≠ inst
    · rw [if_pos hne, if_neg h]
    · rw [if_neg hne]
  · rw [if_neg (by simp [h])]

theorem uri_instance_self_cut (d : List Char) : uri_instance d <+: d :=
  ⟨d.drop (slashCut d), List.take_append_drop _ _⟩

/-- C6, counterexample: on `'https://h/https://h/x'` with spoofed
`'https://h/'` and canonical `'https://cc/'`, the claim's instance cut
(second slash after position 8) is not the spoofed instance, so the claim
predicts the value is left unchanged — but the code rewrites it; moreover
the code's global `replace` also changes characters after the cut, so the
result is not just the prefix swapped. -/
theorem uri_to_url_spec_cut_cex :
    specInstanceCut "https://h/https://h/x".data ≠ "https://h/".data
    ∧ specResolve "https://h/https://h/x".data "https://cc/".data "https://h/".data
        = "https://h/https://h/x".data
    ∧ uri_to_url "https://h/https://h/x".data "https://cc/".data "https://h/".data
        ≠ "https://h/https://h/x".data
    ∧ uri_to_url "https://h/https://h/x".data "https://cc/".data "https://h/".data
        ≠ "https://cc/".data ++ ("https://h/https://h/x".data).drop
            (uri_instance "https://h/https://h/x".data).length :=
  ⟨by decide, by decide, by decide, by decide⟩

/-- C6, amended: the instance cut ends at the FIRST slash at position 8 or
later; exactly when that cut equals the spoofed instance (and the two
instances differ) the value is rewritten by Python `replace` — replacing
EVERY occurrence of the cut — and then begins with the canonical instance;
every other value is returned unchanged, and a series is handled
entry-by-entry by the same rule. -/
theorem uri_to_url_rewrite :
    ∀ (d inst sp : List Char),
      (uri_instance d = sp → sp ≠ inst →
        uri_to_url d inst sp = pyReplace d sp inst
        ∧ ∃ u, uri_to_url d inst sp = inst ++ u)
      ∧ ((uri_instance d ≠ sp ∨ sp = inst) → uri_to_url d inst sp = d)
      ∧ ∀ series, uri_to_url_series series inst sp =
          series.map (fun x => uri_to_url x inst sp) := by
  intro d inst sp
  refine ⟨?_, uri_to_url_unchanged d inst sp, ?_⟩
  · intro hcut hne
    refine ⟨uri_to_url_changed d inst sp hne hcut, ?_⟩
    rw [uri_to_url_changed d inst sp hne hcut]
    obtain ⟨t, ht⟩ := uri_instance_self_cut d
    rw [hcut] at ht
    exact ht ▸ pyReplace_startsWith sp t inst
  · intro series
    by_cases hne : sp ≠ inst
    · simp [uri_to_url_series, uri_to_url, hne]
    · have heq : sp = inst := not_not.mp hne
      simp [uri_to_url_series, uri_to_url, heq]

/-- C6, witness: the docstring example pair of instances, on a matching
value. -/
theorem uri_to_url_rewrite_apply :
    uri_to_url "https://synbiohub.org/p/1".data "https://dev.synbiohub.org/".data
        "https://synbiohub.org/".data
      = pyReplace "https://synbiohub.org/p/1".data "https://synbiohub.org/".data
          "https://dev.synbiohub.org/".data
    ∧ ∃ u, uri_to_url "https://synbiohub.org/p/1".data
        "https://dev.synbiohub.org/".data "https://synbiohub.org/".data
      = "https://dev.synbiohub.org/".data ++ u :=
  (uri_to_url_rewrite "https://synbiohub.org/p/1".data
    "https://dev.synbiohub.org/".data "https://synbiohub.org/".data).1
    (by decide) (by decide)

/-- C8, counterexample: with spoofed `'https://a/'` and canonical
`'https://a/b/'` (distinct, both slash-terminated), the first rewrite of
`'https://a/p'` yields `'https://a/b/p'`, whose instance cut is the
spoofed instance again, so a second application rewrites once more:
the resolver is not idempotent for every distinct instance pair. -/
theorem uri_to_url_idempotent_cex :
    "https://a/".data ≠ "https://a/b/".data
    ∧ uri_to_url (uri_to_url "https://a/p".data "https://a/b/".data "https://a/".data)
        "https://a/b/".data "https://a/".data
      ≠ uri_to_url "https://a/p".data "https://a/b/".data "https://a/".data :=
  ⟨by decide, by decide⟩

/-- C8, amended: the resolver is idempotent whenever the canonical
instance has the documented shape `https://host/` with a slash-free host
(so that a rewritten value's instance cut becomes the canonical instance
and can no longer equal the spoofed one). -/
theorem uri_to_url_idempotent_wellformed :
    ∀ (d inst sp : List Char), WellFormedInstance inst →
      uri_to_url (uri_to_url d inst sp) inst sp = uri_to_url d inst sp := by
  intro d inst sp hwf
  by_cases hne : sp ≠ inst
  · by_cases hcut : uri_instance d = sp
    · obtain ⟨hs, hno, hform⟩ := hwf
      rw [uri_to_url_changed d inst sp hne hcut]
      obtain ⟨t0, ht0⟩ := uri_instance_self_cut d
      rw [hcut] at ht0
      obtain ⟨u, hu⟩ := ht0 ▸ pyReplace_startsWith sp t0 inst
      rw [hu]
      apply uri_to_url_unchanged
      left
      rw [hform]
      have hsplit : ("https://".data ++ hs ++ ['/']) ++ u =
          "https://".data ++ hs ++ '/' :: u := by simp
      rw [hsplit, uri_instance_wellformed_head hs u hno, ← hform]
      exact fun hEq => hne hEq.symm
    · have h := uri_to_url_unchanged d inst sp (Or.inl hcut)
      rw [h]
      exact h
  · have heq : sp = inst := not_not.mp hne
    have h := uri_to_url_unchanged d inst sp (Or.inr heq)
    rw [h]
    exact h

/-- C8, witness: the docstring instances are well formed, so the amended
idempotence applies to them. -/
theorem uri_to_url_idempotent_apply :
    uri_to_url (uri_to_url "https://synbiohub.org/p/1".data
        "https://dev.synbiohub.org/".data "https://synbiohub.org/".data)
      "https://dev.synbiohub.org/".data "https://synbiohub.org/".data
    = uri_to_url "https://synbiohub.org/p/1".data
        "https://dev.synbiohub.org/".data "https://synbiohub.org/".data :=
  uri_to_url_idempotent_wellformed _ _ _
    ⟨"dev.synbiohub.org".data, by decide, by decide⟩

/-- C10: in the heap embedding, the Series branch returns the very
reference it was given, updates only that cell of the store (every other
series object is untouched), the updated contents are the entry-by-entry
rewrite of the old contents, and an entry whose instance cut differs from
the spoofed instance keeps its original string. -/
theorem uri_to_url_series_frame :
    ∀ (heap : List (List (List Char))) (r : Nat) (inst sp : List Char),
      (uri_to_url_heap heap r inst sp).2 = r
      ∧ (∀ j, j ≠ r → (uri_to_url_heap heap r inst sp).1.getD j [] = heap.getD j [])
      ∧ ((uri_to_url_heap heap r inst sp).1.getD r [] =
          uri_to_url_series (heap.getD r []) inst sp)
      ∧ ∀ (data : List (List Char)) (i : Nat), i < data.length →
          uri_instance (data.getD i []) ≠ sp →
          (uri_to_url_series data inst sp).getD i [] = data.getD i [] := by
  intro heap r inst sp
  refine ⟨rfl, ?_, ?_, ?_⟩
  · intro j hj
    show (heap.set r _).getD j [] = _
    rw [List.getD_eq_getElem?_getD, List.getD_eq_getElem?_getD,
      List.getElem?_set_ne (fun h => hj h.symm)]
    rw [List.getD_eq_getElem?_getD]
  · show (heap.set r _).getD r [] = _
    by_cases hr : r < heap.length
    · rw [List.getD_eq_getElem?_getD, List.getElem?_set_self hr]
      rfl
    · have hle := Nat.le_of_not_lt hr
      have hnone : heap[r]? = none := List.getElem?_eq_none hle
      have hD : heap.getD r [] = [] := by
        rw [List.getD_eq_getElem?_getD, hnone]
        rfl
      rw [List.set_eq_of_length_le hle, hD]
      simp [uri_to_url_series]
  · intro data i hi hcut
    by_cases hne : sp ≠ inst
    · unfold uri_to_url_series
      rw [if_pos hne]
      have hx : data[i]? = some data[i] := List.getElem?_eq_getElem hi
      have hgd : data.getD i [] = data[i] := by
        rw [List.getD_eq_getElem?_getD, hx]
        rfl
      rw [hgd] at hcut
      rw [List.getD_eq_getElem?_getD, List.getD_eq_getElem?_getD,
        List.getElem?_map, hx]
      simp [hcut]
    · unfold uri_to_url_series
      rw [if_neg hne]

/-- C10, witness: a two-object store; the call through reference 0 leaves
object 1 untouched. -/
theorem uri_to_url_series_frame_apply :
    (uri_to_url_heap [["https://synbiohub.org/p/1".data], ["keep".data]] 0
        "https://dev.synbiohub.org/".data "https://synbiohub.org/".data).1.getD 1 []
      = [["https://synbiohub.org/p/1".data], ["keep".data]].getD 1 [] :=
  (uri_to_url_series_frame [["https://synbiohub.org/p/1".data], ["keep".data]] 0
    "https://dev.synbiohub.org/".data "https://synbiohub.org/".data).2.1 1
    (by decide)

theorem length_after_finish (o : Option (List BarRow)) (f : BarRow → RankedRow) :
    (o.map (fun tbl => tbl.map f)).map List.length = o.map List.length := by
  cases o <;> simp

theorem barCore_length (rows : List BarRow) (uri inst did t role : List Char)
    (cnt : Nat)
    (h : 1 ≤ (rows.filter (fun r => r.displayId ≠ did)).length) :
    (barCore rows uri inst did t role cnt).map List.length
      = some (min 10 ((rows.filter (fun r => r.displayId ≠ did)).length - 1) + 1) := by
  unfold barCore
  rw [if_neg (by omega)]
  simp only [Option.map_some', Option.some.injEq, List.length_set,
    List.length_map, List.length_take]
  omega

/-- C1, counterexample: a candidate pool of 3 rows (none matching the
focal displayId) yields a ranked table of 3 rows, not `min(3,10)+1 = 4`:
the poi row OVERWRITES the last kept candidate instead of being appended
after all of them. -/
theorem ranked_table_row_count_cex :
    (([barRowA, barRowB, barRowC].filter
        (fun r => r.displayId ≠ "BBa_E0040".data)).length = 3)
    ∧ (most_used_bar [barRowA, barRowB, barRowC] uriFix instFix "BBa_E0040".data
        "GFP".data "0000316".data 2348).map List.length = some 3
    ∧ (most_used_by_type_bar [barRowA, barRowB, barRowC] uriFix instFix
        "BBa_E0040".data "GFP".data "0000316".data 2348).map List.length = some 3
    ∧ (3 : Nat) ≠ min 3 10 + 1 :=
  ⟨by decide, by decide, by decide, by decide⟩

/-- C1, amended: for a candidate pool of `k ≥ 1` rows after removing the
focal displayId, both ranked-table builders return exactly
`min(10, k-1) + 1` rows (that is `min(k, 11)`): at most 10 candidates
survive and the last kept candidate is replaced by the focal row, so a
pool of 3 rows yields 3 rows, not 4.  (`k = 0` raises instead, see C3.) -/
theorem ranked_table_row_count :
    ∀ (rows : List BarRow) (uri inst did t role : List Char) (cnt : Nat),
      1 ≤ (rows.filter (fun r => r.displayId ≠ did)).length →
      (most_used_bar rows uri inst did t role cnt).map List.length
        = some (min 10 ((rows.filter (fun r => r.displayId ≠ did)).length - 1) + 1)
      ∧ (most_used_by_type_bar rows uri inst did t role cnt).map List.length
        = some (min 10 ((rows.filter (fun r => r.displayId ≠ did)).length - 1) + 1) := by
  intro rows uri inst did t role cnt h
  constructor
  · unfold most_used_bar
    rw [length_after_finish]
    exact barCore_length rows uri inst did t role cnt h
  · unfold most_used_by_type_bar
    rw [length_after_finish]
    exact barCore_length rows uri inst did t role cnt h

/-- C1, witness: the three-candidate pool has `min(10, 3-1)+1 = 3` output
rows in both builders. -/
theorem ranked_table_row_count_apply :
    (most_used_bar [barRowA, barRowB, barRowC] uriFix instFix "BBa_E0040".data
        "GFP".data "0000316".data 2348).map List.length = some 3
    ∧ (most_used_by_type_bar [barRowA, barRowB, barRowC] uriFix instFix
        "BBa_E0040".data "GFP".data "0000316".data 2348).map List.length = some 3 := by
  have h := ranked_table_row_count [barRowA, barRowB, barRowC] uriFix instFix
    "BBa_E0040".data "GFP".data "0000316".data 2348 (by decide)
  exact ⟨h.1.trans (by decide), h.2.trans (by decide)⟩

/-- C3: the claim is right and the code is wrong.  When the candidate
pool is empty after deduplication, `robustness = min(10, 0-1) = -1` and
the assignment `bar_df.iloc[-1] = poi_row.iloc[0]` raises `IndexError`
on the zero-row frame (modelled as `none`) instead of producing the
1-row table the spec requires. -/
theorem empty_candidate_pool_raises :
    (([poiOnly].filter (fun r => r.displayId ≠ "BBa_E0040".data)).length = 0)
    ∧ most_used_bar [poiOnly] uriFix instFix "BBa_E0040".data "GFP".data
        "0000316".data 2348 = none
    ∧ most_used_by_type_bar [poiOnly] uriFix instFix "BBa_E0040".data "GFP".data
        "0000316".data 2348 = none :=
  ⟨by decide, by decide, by decide⟩

theorem barCore_shape (rows : List BarRow) (uri inst did t role : List Char)
    (cnt : Nat) (tbl : List BarRow)
    (h : barCore rows uri inst did t role cnt = some tbl) :
    ∃ kept poi, tbl = kept ++ [poi] ∧ poi.displayId = did
      ∧ ∀ r ∈ kept, r.displayId ≠ did := by
  unfold barCore at h
  by_cases h0 : (rows.filter (fun r => r.displayId ≠ did)).length = 0
  · rw [if_pos h0] at h
    cases h
  · rw [if_neg h0] at h
    have hE := Option.some.inj h
    subst hE
    set deduped := rows.filter (fun r => r.displayId ≠ did) with hded
    set rob := min 10 (deduped.length - 1) with hrob
    set kept2 := (deduped.take (rob + 1)).map
      (fun r => { r with deff := uri_to_url r.deff inst (uri_instance uri) }) with hkept
    have hlen2 : kept2.length = rob + 1 := by
      rw [hkept]
      simp only [List.length_map, List.length_take]
      omega
    refine ⟨kept2.take rob,
      { count := cnt, deff := uri_to_url uri inst (uri_instance uri),
        displayId := did, roletog := soStem ++ role, title := some t },
      ?_, rfl, ?_⟩
    · rw [List.set_eq_take_append_cons_drop, if_pos (by omega)]
      have hdrop : kept2.drop (rob + 1) = [] := by
        apply List.drop_eq_nil_of_le
        omega
      rw [hdrop]
    · intro r hr
      have hr2 : r ∈ kept2 := List.mem_of_mem_take hr
      rw [hkept] at hr2
      obtain ⟨x, hxm, hxr⟩ := List.mem_map.mp hr2
      have hxd : x ∈ deduped := List.mem_of_mem_take hxm
      rw [hded] at hxd
      have := (List.mem_filter.mp hxd).2
      have hxne : x.displayId ≠ did := by
        simpa using this
      rw [← hxr]
      exact hxne

theorem map_shape_last (kept : List BarRow) (poi : BarRow) (did : List Char)
    (f : BarRow → RankedRow) (hf : ∀ r, (f r).displayId = r.displayId)
    (hpoi : poi.displayId = did) (hk : ∀ r ∈ kept, r.displayId ≠ did) :
    (((kept ++ [poi]).map f).getLast?).map (fun r => r.displayId) = some did
    ∧ (((kept ++ [poi]).map f).filter (fun r => r.displayId = did)).length = 1 := by
  constructor
  · rw [List.map_append]
    show ((kept.map f ++ [f poi]).getLast?).map _ = _
    rw [List.getLast?_concat]
    simp [hf, hpoi]
  · rw [List.map_append, List.filter_append]
    have h1 : (kept.map f).filter (fun r => r.displayId = did) = [] := by
      rw [List.filter_eq_nil_iff]
      intro a ha
      obtain ⟨x, hxm, hxa⟩ := List.mem_map.mp ha
      rw [← hxa]
      simp [hf]
      exact hk x hxm
    rw [h1]
    simp [hf, hpoi]

/-- C4: whenever a ranked-table builder returns a table (candidate pool
nonempty), the final row's displayId equals the focal part's displayId —
whether or not the focal part was in the pool — and the focal displayId
occurs in exactly one row of the output; this holds for both builders. -/
theorem ranked_table_last_row_focal :
    ∀ (rows : List BarRow) (uri inst did t role : List Char) (cnt : Nat)
      (tbl tbl2 : List RankedRow),
      (most_used_bar rows uri inst did t role cnt = some tbl →
        (tbl.getLast?).map (fun r => r.displayId) = some did
        ∧ (tbl.filter (fun r => r.displayId = did)).length = 1)
      ∧ (most_used_by_type_bar rows uri inst did t role cnt = some tbl2 →
        (tbl2.getLast?).map (fun r => r.displayId) = some did
        ∧ (tbl2.filter (fun r => r.displayId = did)).length = 1) := by
  intro rows uri inst did t role cnt tbl tbl2
  constructor
  · intro h
    unfold most_used_bar at h
    cases hb : barCore rows uri inst did t role cnt with
    | none => rw [hb] at h; cases h
    | some core =>
      rw [hb] at h
      obtain ⟨kept, poi, hshape, hpoi, hk⟩ := barCore_shape rows uri inst did t
        role cnt core hb
      have htbl := Option.some.inj h
      rw [← htbl, hshape]
      exact map_shape_last kept poi did _ (fun r => rfl) hpoi hk
  · intro h
    unfold most_used_by_type_bar at h
    cases hb : barCore rows uri inst did t role cnt with
    | none => rw [hb] at h; cases h
    | some core =>
      rw [hb] at h
      obtain ⟨kept, poi, hshape, hpoi, hk⟩ := barCore_shape rows uri inst did t
        role cnt core hb
      have htbl := Option.some.inj h
      rw [← htbl, hshape]
      exact map_shape_last kept poi did _ (fun r => rfl) hpoi hk

/-- C4, witness: on a one-candidate pool the output is the focal row
alone, which is last and unique. -/
theorem ranked_table_last_row_focal_apply :
    (([poiRanked].getLast?).map (fun r => r.displayId) = some "BBa_E0040".data)
    ∧ (([poiRanked].filter
        (fun r => r.displayId = "BBa_E0040".data)).length = 1) :=
  (ranked_table_last_row_focal [barRowC] uriFix instFix "BBa_E0040".data
    "GFP".data "0000316".data 2348 [poiRanked] []).1 (by decide)

/-- C9, counterexample: the orange fallback produced by the code is the
string `'rgba(255, 128,0,1)'`, with a space after the first comma — not
the claimed `'rgba(255,128,0,1)'`.  A two-candidate pool whose first row
has the unmapped role `SO:0000110` makes the discrepancy observable in
the output. -/
theorem ranked_table_orange_cex :
    (most_used_bar [barRowB, barRowC] uriFix instFix "BBa_E0040".data "GFP".data
        "0000316".data 2348).map (fun tbl => tbl.map (fun r => r.color))
      = some ["rgba(255, 128,0,1)".data, "rgba(119,157,205,1)".data]
    ∧ colormap barRowB.roletog = none
    ∧ "rgba(255, 128,0,1)".data ≠ "rgba(255,128,0,1)".data :=
  ⟨by decide, by decide, by decide⟩

/-- C9, amended: every output row of `most_used_bar` is coloured by the
fixed role-to-colour mapping applied to its own role, and a row whose
role is none of the four mapped codes receives exactly the string
`'rgba(255, 128,0,1)'` (the source's orange literal contains a space
after the first comma). -/
theorem ranked_table_colours :
    ∀ (rows : List BarRow) (uri inst did t role : List Char) (cnt : Nat)
      (tbl : List RankedRow),
      most_used_bar rows uri inst did t role cnt = some tbl →
      ∀ r ∈ tbl,
        (r.roletog = "http://identifiers.org/so/SO:0000167".data →
          r.color = "rgba(4,187,61,1)".data)
        ∧ (r.roletog = "http://identifiers.org/so/SO:0000139".data →
          r.color = "rgba(149,110,219,1)".data)
        ∧ (r.roletog = "http://identifiers.org/so/SO:0000316".data →
          r.color = "rgba(119,157,205,1)".data)
        ∧ (r.roletog = "http://identifiers.org/so/SO:0000141".data →
          r.color = "rgba(202,58,32,1)".data)
        ∧ (r.roletog ≠ "http://identifiers.org/so/SO:0000167".data →
          r.roletog ≠ "http://identifiers.org/so/SO:0000139".data →
          r.roletog ≠ "http://identifiers.org/so/SO:0000316".data →
          r.roletog ≠ "http://identifiers.org/so/SO:0000141".data →
          r.color = "rgba(255, 128,0,1)".data) := by
  intro rows uri inst did t role cnt tbl h r hr
  unfold most_used_bar at h
  cases hb : barCore rows uri inst did t role cnt with
  | none => rw [hb] at h; cases h
  | some core =>
    rw [hb] at h
    have htbl := Option.some.inj h
    rw [← htbl] at hr
    obtain ⟨x, hxm, hxr⟩ := List.mem_map.mp hr
    have hcol : r.color = rowColour x.roletog := by rw [← hxr]
    have hrole : r.roletog = x.roletog := by rw [← hxr]
    refine ⟨?_, ?_, ?_, ?_, ?_⟩
    · intro hx
      rw [hrole] at hx
      rw [hcol, hx]
      decide
    · intro hx
      rw [hrole] at hx
      rw [hcol, hx]
      decide
    · intro hx
      rw [hrole] at hx
      rw [hcol, hx]
      decide
    · intro hx
      rw [hrole] at hx
      rw [hcol, hx]
      decide
    · intro h1 h2 h3 h4
      rw [hrole] at h1 h2 h3 h4
      rw [hcol]
      unfold rowColour colormap
      rw [if_neg h1, if_neg h2, if_neg h3, if_neg h4]
      decide

/-- C9, witness: the CDS role of the focal row is mapped to the blue
colour in the one-row output of the one-candidate pool. -/
theorem ranked_table_colours_apply :
    poiRanked.color = "rgba(119,157,205,1)".data :=
  ((ranked_table_colours [barRowC] uriFix instFix "BBa_E0040".data "GFP".data
    "0000316".data 2348 [poiRanked] (by decide)) poiRanked
    (by decide)).2.2.1 (by decide)

theorem zipWith_map_same {α β γ δ : Type} (f : β → γ → δ) (g : α → β)
    (h : α → γ) (l : List α) :
    List.zipWith f (l.map g) (l.map h) = l.map (fun x => f (g x) (h x)) := by
  induction l with
  | nil => rfl
  | cons a l ih => simp [ih]

theorem map_take_all {α β : Type} (f : α → β) (K : List α) (r : List β) :
    ((K.map f) ++ r).take K.length = K.map f :=
  List.take_left' (by simp)

theorem mirror_slice {α : Type} (A K : List α) (t : α) (h : A.length = 5) :
    ((A ++ (K ++ [t])).drop 5).dropLast = K := by
  rw [← h, List.drop_left, List.dropLast_concat]

theorem keptRows_fst_lt (rows : List PrepRow) : ∀ p ∈ keptRows rows, p.1 < 5 := by
  intro p hp
  unfold keptRows at hp
  obtain ⟨b, hb, hpm⟩ := List.mem_flatMap.mp hp
  obtain ⟨r, hr, rfl⟩ := List.mem_map.mp hpm
  exact List.mem_range.mp hb

theorem sankey_components (rows : List SankeyRow) (url uri title inst : List Char) :
    (sankey rows url uri title inst).source
      = (keptRows (sankeyPrep rows uri inst)).map (fun p => p.1)
        ++ (List.range (keptRows (sankeyPrep rows uri inst)).length).map
            (fun i => i + 5)
        ++ List.replicate (keptRows (sankeyPrep rows uri inst)).length
            (5 + (keptRows (sankeyPrep rows uri inst)).length)
        ++ (List.range (keptRows (sankeyPrep rows uri inst)).length).map
            (fun i => 5 + (keptRows (sankeyPrep rows uri inst)).length + 1 + i)
    ∧ (sankey rows url uri title inst).target
      = (List.range (keptRows (sankeyPrep rows uri inst)).length).map
            (fun i => i + 5)
        ++ List.replicate (keptRows (sankeyPrep rows uri inst)).length
            (5 + (keptRows (sankeyPrep rows uri inst)).length)
        ++ (List.range (keptRows (sankeyPrep rows uri inst)).length).map
            (fun i => 5 + (keptRows (sankeyPrep rows uri inst)).length + 1 + i)
        ++ ((keptRows (sankeyPrep rows uri inst)).map (fun p => p.1)).map
            (fun x => x + (5 + (keptRows (sankeyPrep rows uri inst)).length)
              + (keptRows (sankeyPrep rows uri inst)).length + 1)
    ∧ (sankey rows url uri title inst).value
      = (keptRows (sankeyPrep rows uri inst)).map
            (fun p => p.2.count * (1 - p.2.centfol))
        ++ (keptRows (sankeyPrep rows uri inst)).map
            (fun p => p.2.count * (1 - p.2.centfol))
        ++ (keptRows (sankeyPrep rows uri inst)).map
            (fun p => p.2.centfol * p.2.count)
        ++ (keptRows (sankeyPrep rows uri inst)).map
            (fun p => p.2.centfol * p.2.count)
    ∧ (sankey rows url uri title inst).linkColour
      = (keptRows (sankeyPrep rows uri inst)).map
            (fun p => link_colours.getD p.1 [])
        ++ (keptRows (sankeyPrep rows uri inst)).map
            (fun p => link_colours.getD p.1 [])
        ++ (keptRows (sankeyPrep rows uri inst)).map
            (fun p => link_colours.getD p.1 [])
        ++ (keptRows (sankeyPrep rows uri inst)).map
            (fun p => link_colours.getD p.1 [])
    ∧ (sankey rows url uri title inst).nodeLabel
      = precedingLabels ++ (keptRows (sankeyPrep rows uri inst)).map
            (fun p => p.2.title)
        ++ [title] ++ (keptRows (sankeyPrep rows uri inst)).map
            (fun p => p.2.title)
        ++ followingLabels
    ∧ (sankey rows url uri title inst).nodeColour
      = node_colours ++ (keptRows (sankeyPrep rows uri inst)).map
            (fun p => node_colours.getD p.1 [])
        ++ ["#000000".data] ++ (keptRows (sankeyPrep rows uri inst)).map
            (fun p => node_colours.getD p.1 [])
        ++ node_colours
    ∧ (sankey rows url uri title inst).nodeUrl
      = List.replicate 5 "NA".data ++ (keptRows (sankeyPrep rows uri inst)).map
            (fun p => p.2.deff)
        ++ [url] ++ (keptRows (sankeyPrep rows uri inst)).map
            (fun p => p.2.deff)
        ++ List.replicate 5 "NA".data := by
  unfold sankey
  refine ⟨?_, ?_, ?_, ?_, ?_, ?_, ?_⟩
  · simp [List.append_assoc]
  · simp only [List.append_assoc]
    rw [map_take_all]
  · simp only [List.append_assoc, zipWith_map_same]
  · simp only [List.append_assoc]
    rw [map_take_all, map_take_all]
  · simp only [List.append_assoc]
    rw [mirror_slice precedingLabels _ _ (by decide)]
  · simp only [List.append_assoc]
    rw [mirror_slice node_colours _ _ (by decide)]
  · simp only [List.append_assoc]
    rw [mirror_slice (List.replicate 5 "NA".data) _ _ (by decide)]

/-- C2, counterexample: one kept promoter row (`P = 1`) produces the
expected `11 + 2·1 = 13` node records but `4` link records, not `3·1`:
the code emits four link families (header→part, part→focal,
focal→following, following→footer), each of size `P`. -/
theorem sankey_link_count_cex :
    (keptRows (sankeyPrep [sankeyRowProm] uriFix instFix)).length = 1
    ∧ (sankey [sankeyRowProm] "URL".data uriFix "GFP".data
        instFix).nodeLabel.length = 11 + 2 * 1
    ∧ (sankey [sankeyRowProm] "URL".data uriFix "GFP".data
        instFix).source.length = 4
    ∧ (4 : Nat) ≠ 3 * 1 :=
  ⟨by decide, by decide, by decide, by decide⟩

/-- C2, amended: with `P` the total number of preceding rows kept across
the five role buckets (at most 10 per bucket), the flow-graph table has
exactly `11 + 2·P` node records (labels, node colours, node URLs) and
exactly `4·P` link records (sources, targets, widths, link colours) —
not `3·P`. -/
theorem sankey_node_link_counts :
    ∀ (rows : List SankeyRow) (url uri title inst : List Char),
      ((sankey rows url uri title inst).nodeLabel.length
        = 11 + 2 * (keptRows (sankeyPrep rows uri inst)).length)
      ∧ ((sankey rows url uri title inst).nodeColour.length
        = 11 + 2 * (keptRows (sankeyPrep rows uri inst)).length)
      ∧ ((sankey rows url uri title inst).nodeUrl.length
        = 11 + 2 * (keptRows (sankeyPrep rows uri inst)).length)
      ∧ ((sankey rows url uri title inst).source.length
        = 4 * (keptRows (sankeyPrep rows uri inst)).length)
      ∧ ((sankey rows url uri title inst).target.length
        = 4 * (keptRows (sankeyPrep rows uri inst)).length)
      ∧ ((sankey rows url uri title inst).value.length
        = 4 * (keptRows (sankeyPrep rows uri inst)).length)
      ∧ ((sankey rows url uri title inst).linkColour.length
        = 4 * (keptRows (sankeyPrep rows uri inst)).length) := by
  intro rows url uri title inst
  obtain ⟨hs, ht, hv, hl, hnl, hnc, hnu⟩ :=
    sankey_components rows url uri title inst
  have h5a : precedingLabels.length = 5 := by decide
  have h5b : followingLabels.length = 5 := by decide
  have h5c : node_colours.length = 5 := by decide
  refine ⟨?_, ?_, ?_, ?_, ?_, ?_, ?_⟩
  · rw [hnl]
    simp only [List.length_append, List.length_map, List.length_cons,
      List.length_nil, h5a, h5b]
    omega
  · rw [hnc]
    simp only [List.length_append, List.length_map, List.length_cons,
      List.length_nil, h5c]
    omega
  · rw [hnu]
    simp only [List.length_append, List.length_map, List.length_cons,
      List.length_nil, List.length_replicate]
    omega
  · rw [hs]
    simp only [List.length_append, List.length_map, List.length_range,
      List.length_replicate]
    omega
  · rw [ht]
    simp only [List.length_append, List.length_map, List.length_range,
      List.length_replicate]
    omega
  · rw [hv]
    simp only [List.length_append, List.length_map]
    omega
  · rw [hl]
    simp only [List.length_append, List.length_map]
    omega

/-- C5: the node lists follow strict construction order — the five
bucket headers first, then the kept preceding-part nodes, then exactly
one focal node, then the mirrored following-part nodes (same rows, same
order), then the five bucket footers — and every Source/Target entry of
the link lists is a valid index into the node table. -/
theorem sankey_flow_graph_order :
    ∀ (rows : List SankeyRow) (url uri title inst : List Char),
      ((sankey rows url uri title inst).nodeLabel
        = precedingLabels
          ++ (keptRows (sankeyPrep rows uri inst)).map (fun p => p.2.title)
          ++ [title]
          ++ (keptRows (sankeyPrep rows uri inst)).map (fun p => p.2.title)
          ++ followingLabels)
      ∧ ∀ i, (i ∈ (sankey rows url uri title inst).source
            ∨ i ∈ (sankey rows url uri title inst).target) →
          i < (sankey rows url uri title inst).nodeLabel.length := by
  intro rows url uri title inst
  obtain ⟨hs, ht, hv, hl, hnl, hnc, hnu⟩ :=
    sankey_components rows url uri title inst
  have h5a : precedingLabels.length = 5 := by decide
  have h5b : followingLabels.length = 5 := by decide
  have hlen : (sankey rows url uri title inst).nodeLabel.length
      = 11 + 2 * (keptRows (sankeyPrep rows uri inst)).length := by
    rw [hnl]
    simp only [List.length_append, List.length_map, List.length_cons,
      List.length_nil, h5a, h5b]
    omega
  refine ⟨hnl, ?_⟩
  intro i hi
  rw [hlen]
  rcases hi with hi | hi
  · rw [hs] at hi
    simp only [List.mem_append] at hi
    rcases hi with ((hi | hi) | hi) | hi
    · obtain ⟨p, hp, rfl⟩ := List.mem_map.mp hi
      have := keptRows_fst_lt _ p hp
      omega
    · obtain ⟨j, hj, rfl⟩ := List.mem_map.mp hi
      have := List.mem_range.mp hj
      omega
    · have := List.eq_of_mem_replicate hi
      omega
    · obtain ⟨j, hj, rfl⟩ := List.mem_map.mp hi
      have := List.mem_range.mp hj
      omega
  · rw [ht] at hi
    simp only [List.mem_append] at hi
    rcases hi with ((hi | hi) | hi) | hi
    · obtain ⟨j, hj, rfl⟩ := List.mem_map.mp hi
      have := List.mem_range.mp hj
      omega
    · have := List.eq_of_mem_replicate hi
      omega
    · obtain ⟨j, hj, rfl⟩ := List.mem_map.mp hi
      have := List.mem_range.mp hj
      omega
    · obtain ⟨x, hx, rfl⟩ := List.mem_map.mp hi
      obtain ⟨p, hp, rfl⟩ := List.mem_map.mp hx
      have := keptRows_fst_lt _ p hp
      omega

/-- C5, witness: link source 0 (the promoter header) is a valid node
index in the one-promoter flow graph. -/
theorem sankey_flow_graph_order_apply :
    0 < (sankey [sankeyRowProm] "URL".data uriFix "GFP".data
      instFix).nodeLabel.length :=
  (sankey_flow_graph_order [sankeyRowProm] "URL".data uriFix "GFP".data
    instFix).2 0 (Or.inl (by decide))

/-- C7: per kept row, the header→part and part→focal links share the
width `usageCount · (1 − percentPreceding)` and the bucket's
semi-transparent colour, while the focal→following and following→footer
links for the same row both have width `percentPreceding · usageCount`
and the same bucket colour: the four link-family lists are the four
row-wise maps below, in construction order. -/
theorem sankey_link_widths_colours :
    ∀ (rows : List SankeyRow) (url uri title inst : List Char),
      ((sankey rows url uri title inst).value
        = (keptRows (sankeyPrep rows uri inst)).map
              (fun p => p.2.count * (1 - p.2.centfol))
          ++ (keptRows (sankeyPrep rows uri inst)).map
              (fun p => p.2.count * (1 - p.2.centfol))
          ++ (keptRows (sankeyPrep rows uri inst)).map
              (fun p => p.2.centfol * p.2.count)
          ++ (keptRows (sankeyPrep rows uri inst)).map
              (fun p => p.2.centfol * p.2.count))
      ∧ ((sankey rows url uri title inst).linkColour
        = (keptRows (sankeyPrep rows uri inst)).map
              (fun p => link_colours.getD p.1 [])
          ++ (keptRows (sankeyPrep rows uri inst)).map
              (fun p => link_colours.getD p.1 [])
          ++ (keptRows (sankeyPrep rows uri inst)).map
              (fun p => link_colours.getD p.1 [])
          ++ (keptRows (sankeyPrep rows uri inst)).map
              (fun p => link_colours.getD p.1 [])) :=
  fun rows url uri title inst =>
    ⟨(sankey_components rows url uri title inst).2.2.1,
     (sankey_components rows url uri title inst).2.2.2.1⟩

end VisualComponent
